import Mathlib

/-!
Verification of the outbound delivery pipeline of the `mail_server` repository.

This file gives a shallow embedding, in Lean 4, of the parts of the code that
the specification claims talk about:

* `OutgoingMailLog.update_status` and the aggregate status recomputation
  (`outgoing_mail_log.py`),
* `OutgoingMailLog.push_to_queue` with its precondition re-check, broker
  publish and failure backoff,
* the batch sweep query of `push_emails_to_queue`,
* the delivery status reconciler handlers `queue_ok`, `undelivered` and
  `delivered` of `fetch_and_update_delivery_statuses`,
* the bounce ledger (`bounce_history.py`),
* the whitelisted operator actions `force_accept`, `retry_failed`,
  `retry_bounced` and `force_push_to_queue`,
* recipient handling of `create_outgoing_mail_log`.

Timestamps are modelled as natural numbers (an abstract monotone clock; the
unit is minutes for the outgoing-mail component, days for the bounce ledger,
matching the units the code passes to `add_to_date` / `add_days`).
Opaque external payloads (tracebacks, raw broker responses) are modelled as
strings carried in from the environment.
-/

namespace MailServer

/-- Per-recipient child row of an Outgoing Mail Log
(`Mail Log Recipient`). `action_after` is `time_diff_in_seconds` of two
timestamps, hence an integer. -/
structure MailLogRecipient where
  email : String
  status : String
  retries : Nat
  action_at : Nat
  action_after : Int
  response : String
  error_message : Option String
deriving DecidableEq, Repr

/-- The fields of an `Outgoing Mail Log` document that the modelled
operations read or write.  Derived diagnostic fields
(`transfer_started_after` and friends, which are pure functions of the kept
timestamps) are omitted. -/
structure OutgoingMailLog where
  name : String
  status : String
  priority : Nat
  failed_count : Nat
  retry_after : Option Nat
  received_at : Nat
  processed_at : Nat
  transfer_started_at : Nat
  transfer_completed_at : Nat
  error_log : Option String
  error_message : Option String
  agent : String
  queue_id : String
  recipients : List MailLogRecipient
  message : String
  domain_name : String
deriving DecidableEq, Repr

/-- `MAX_FAILED_COUNT` from `outgoing_mail_log.py`. -/
def MAX_FAILED_COUNT : Nat := 5

/-- The status list of the recipients, `[r.status for r in self.recipients]`
in `update_status`. -/
def recipientStatuses (rs : List MailLogRecipient) : List String :=
  rs.map (fun r => r.status)

/-- The status computed by the `if not status:` branch of
`OutgoingMailLog.update_status`: counts of each recipient status drive an
if/elif chain; `none` models both the early `return` (all recipients
pending) and falling through the chain without a match. -/
def computeMessageStatus (rs : List MailLogRecipient) : Option String :=
  let sts := recipientStatuses rs
  let total := sts.length
  if sts.count "" = total then none
  else if sts.count "Blocked" = total then some "Blocked"
  else if 0 < sts.count "Deferred" then some "Deferred"
  else if sts.count "Sent" = total then some "Sent"
  else if 0 < sts.count "Sent" then some "Partially Sent"
  else if 0 < sts.count "Bounced" then some "Bounced"
  else none

/-- Result of `update_status`: the status field after the call and whether a
database write (`_db_set`) of the status happened. -/
structure UpdateStatusResult where
  newStatus : String
  dbWrote : Bool
deriving DecidableEq, Repr

/-- `OutgoingMailLog.update_status(status, db_set)`.  A missing or falsy
(empty) `status` argument triggers recomputation from the recipient
statuses; if the chain produces no status the document status is left
unchanged and nothing is written. -/
def update_status (doc : OutgoingMailLog) (statusArg : Option String)
    (dbSet : Bool) : UpdateStatusResult :=
  let s0 : Option String :=
    match statusArg with
    | none => computeMessageStatus doc.recipients
    | some s => if s = "" then computeMessageStatus doc.recipients else some s
  match s0 with
  | some s => { newStatus := s, dbWrote := dbSet }
  | none => { newStatus := doc.status, dbWrote := false }

/-- Applying `update_status(db_set=True)` to the document itself, as the
reconciler handlers do. -/
def applyUpdateStatus (doc : OutgoingMailLog) : OutgoingMailLog :=
  { doc with status := (update_status doc none true).newStatus }

end MailServer

namespace MailServer

section CountLemmas

lemma count_statuses_eq_length_iff (rs : List MailLogRecipient) (k : String) :
    (recipientStatuses rs).count k = (recipientStatuses rs).length ↔
      ∀ r ∈ rs, r.status = k := by
  rw [List.count_eq_length]
  constructor
  · intro h r hr
    exact (h r.status (List.mem_map_of_mem _ hr)).symm
  · intro h s hs
    rcases List.mem_map.mp hs with ⟨r, hr, rfl⟩
    exact (h r hr).symm

lemma count_statuses_pos_iff (rs : List MailLogRecipient) (k : String) :
    0 < (recipientStatuses rs).count k ↔ ∃ r ∈ rs, r.status = k := by
  rw [List.count_pos_iff]
  constructor
  · intro h
    rcases List.mem_map.mp h with ⟨r, hr, hk⟩
    exact ⟨r, hr, hk⟩
  · rintro ⟨r, hr, rfl⟩
    exact List.mem_map_of_mem _ hr

end CountLemmas

/-- C1 -- Aggregate status recomputation: for a message recomputing its
status from recipient statuses (`update_status` with no explicit status),
if any recipient is Deferred the message becomes Deferred; else if all
recipients are Sent (and there is at least one) it becomes Sent; else if
some but not all recipients are Sent it becomes Partially Sent; else, when
every recipient is Bounced or unset and at least one is Bounced, it becomes
Bounced. -/
theorem update_status_aggregate_rule (doc : OutgoingMailLog) (dbs : Bool) :
    ((∃ r ∈ doc.recipients, r.status = "Deferred") →
      (update_status doc none dbs).newStatus = "Deferred")
    ∧ ((doc.recipients ≠ [] ∧ ∀ r ∈ doc.recipients, r.status = "Sent") →
      (update_status doc none dbs).newStatus = "Sent")
    ∧ (((∃ r ∈ doc.recipients, r.status = "Sent")
        ∧ ¬ (∀ r ∈ doc.recipients, r.status = "Sent")
        ∧ (∀ r ∈ doc.recipients, r.status ≠ "Deferred")) →
      (update_status doc none dbs).newStatus = "Partially Sent")
    ∧ (((∃ r ∈ doc.recipients, r.status = "Bounced")
        ∧ (∀ r ∈ doc.recipients, r.status = "Bounced" ∨ r.status = "")) →
      (update_status doc none dbs).newStatus = "Bounced") := by
  refine ⟨?_, ?_, ?_, ?_⟩
  · rintro ⟨r, hr, hst⟩
    have hdef : 0 < (recipientStatuses doc.recipients).count "Deferred" :=
      (count_statuses_pos_iff _ _).mpr ⟨r, hr, hst⟩
    have hne : ¬ (recipientStatuses doc.recipients).count "" =
        (recipientStatuses doc.recipients).length := by
      intro h
      have := (count_statuses_eq_length_iff _ _).mp h r hr
      simp [hst] at this
    have hnb : ¬ (recipientStatuses doc.recipients).count "Blocked" =
        (recipientStatuses doc.recipients).length := by
      intro h
      have := (count_statuses_eq_length_iff _ _).mp h r hr
      simp [hst] at this
    simp only [update_status, computeMessageStatus]
    rw [if_neg hne, if_neg hnb, if_pos hdef]
  · rintro ⟨hne, hall⟩
    rcases List.exists_mem_of_ne_nil _ hne with ⟨r, hr⟩
    have hsent : (recipientStatuses doc.recipients).count "Sent" =
        (recipientStatuses doc.recipients).length :=
      (count_statuses_eq_length_iff _ _).mpr hall
    have hne0 : ¬ (recipientStatuses doc.recipients).count "" =
        (recipientStatuses doc.recipients).length := by
      intro h
      have := (count_statuses_eq_length_iff _ _).mp h r hr
      have := hall r hr
      simp_all
    have hnb : ¬ (recipientStatuses doc.recipients).count "Blocked" =
        (recipientStatuses doc.recipients).length := by
      intro h
      have := (count_statuses_eq_length_iff _ _).mp h r hr
      have := hall r hr
      simp_all
    have hnd : ¬ 0 < (recipientStatuses doc.recipients).count "Deferred" := by
      intro h
      rcases (count_statuses_pos_iff _ _).mp h with ⟨s, hs, hsd⟩
      have := hall s hs
      simp_all
    simp only [update_status, computeMessageStatus]
    rw [if_neg hne0, if_neg hnb, if_neg hnd, if_pos hsent]
  · rintro ⟨⟨r, hr, hrs⟩, hnall, hnd⟩
    have hpos : 0 < (recipientStatuses doc.recipients).count "Sent" :=
      (count_statuses_pos_iff _ _).mpr ⟨r, hr, hrs⟩
    have hne0 : ¬ (recipientStatuses doc.recipients).count "" =
        (recipientStatuses doc.recipients).length := by
      intro h
      have := (count_statuses_eq_length_iff _ _).mp h r hr
      simp [hrs] at this
    have hnb : ¬ (recipientStatuses doc.recipients).count "Blocked" =
        (recipientStatuses doc.recipients).length := by
      intro h
      have := (count_statuses_eq_length_iff _ _).mp h r hr
      simp [hrs] at this
    have hndef : ¬ 0 < (recipientStatuses doc.recipients).count "Deferred" := by
      intro h
      rcases (count_statuses_pos_iff _ _).mp h with ⟨s, hs, hsd⟩
      exact hnd s hs hsd
    have hnsall : ¬ (recipientStatuses doc.recipients).count "Sent" =
        (recipientStatuses doc.recipients).length := by
      intro h
      exact hnall ((count_statuses_eq_length_iff _ _).mp h)
    simp only [update_status, computeMessageStatus]
    rw [if_neg hne0, if_neg hnb, if_neg hndef, if_neg hnsall, if_pos hpos]
  · rintro ⟨⟨r, hr, hrs⟩, hall⟩
    have hbpos : 0 < (recipientStatuses doc.recipients).count "Bounced" :=
      (count_statuses_pos_iff _ _).mpr ⟨r, hr, hrs⟩
    have hne0 : ¬ (recipientStatuses doc.recipients).count "" =
        (recipientStatuses doc.recipients).length := by
      intro h
      have := (count_statuses_eq_length_iff _ _).mp h r hr
      simp [hrs] at this
    have hnb : ¬ (recipientStatuses doc.recipients).count "Blocked" =
        (recipientStatuses doc.recipients).length := by
      intro h
      have := (count_statuses_eq_length_iff _ _).mp h r hr
      simp [hrs] at this
    have hndef : ¬ 0 < (recipientStatuses doc.recipients).count "Deferred" := by
      intro h
      rcases (count_statuses_pos_iff _ _).mp h with ⟨s, hs, hsd⟩
      rcases hall s hs with h1 | h1 <;> simp_all
    have hnsall : ¬ (recipientStatuses doc.recipients).count "Sent" =
        (recipientStatuses doc.recipients).length := by
      intro h
      have := (count_statuses_eq_length_iff _ _).mp h r hr
      simp [hrs] at this
    have hnsp : ¬ 0 < (recipientStatuses doc.recipients).count "Sent" := by
      intro h
      rcases (count_statuses_pos_iff _ _).mp h with ⟨s, hs, hsd⟩
      rcases hall s hs with h1 | h1 <;> simp_all
    simp only [update_status, computeMessageStatus]
    rw [if_neg hne0, if_neg hnb, if_neg hndef, if_neg hnsall, if_neg hnsp,
      if_pos hbpos]

/-- Concrete recipient rows used by the witness for C1. -/
def rcptSentA : MailLogRecipient :=
  { email := "a@example.com", status := "Sent", retries := 0, action_at := 0,
    action_after := 0, response := "", error_message := none }

def rcptBouncedB : MailLogRecipient :=
  { email := "b@example.com", status := "Bounced", retries := 0, action_at := 0,
    action_after := 0, response := "", error_message := none }

/-- Concrete message used by the witness for C1. -/
def docC1 : OutgoingMailLog :=
  { name := "m1", status := "Queued (Haraka)", priority := 1, failed_count := 0,
    retry_after := none, received_at := 0, processed_at := 0,
    transfer_started_at := 0, transfer_completed_at := 0, error_log := none,
    error_message := none, agent := "", queue_id := "q1",
    recipients := [rcptSentA, rcptBouncedB], message := "raw",
    domain_name := "example.com" }

/-- Witness for C1: a message with one Sent and one Bounced recipient
recomputes to Partially Sent. -/
theorem update_status_aggregate_rule_witness :
    (update_status docC1 none true).newStatus = "Partially Sent" :=
  (update_status_aggregate_rule docC1 true).2.2.1
    ⟨⟨rcptSentA, by decide, by decide⟩,
     by decide,
     by decide⟩

/-- C10 -- When every recipient status is unset, `update_status` with no
explicit status leaves the message status unchanged and writes nothing. -/
theorem update_status_all_pending_frame (doc : OutgoingMailLog) (dbs : Bool)
    (h : ∀ r ∈ doc.recipients, r.status = "") :
    update_status doc none dbs =
      { newStatus := doc.status, dbWrote := false } := by
  have h0 : (recipientStatuses doc.recipients).count "" =
      (recipientStatuses doc.recipients).length :=
    (count_statuses_eq_length_iff _ _).mpr h
  simp only [update_status, computeMessageStatus]
  rw [if_pos h0]

/-- Backoff formula of `push_to_queue`:
`retry_after_minutes = failed_count * (failed_count + 1)`. -/
def backoffMinutes (failed_count : Nat) : Nat :=
  failed_count * (failed_count + 1)

/-- Outcome of a `push_to_queue` call: the resulting document fields,
whether a broker publish happened, whether `frappe.throw` was raised, and
whether the method returned at the precondition re-check. -/
structure PushResult where
  doc : OutgoingMailLog
  published : Bool
  threw : Bool
  returnedEarly : Bool
deriving DecidableEq, Repr

/-- `OutgoingMailLog.push_to_queue`.  `doc` is the (re)loaded document
state, `force` models `frappe.flags.force_push_to_queue`, `publishOk`
whether the broker publish succeeds, `tNow` the current time and `trace`
the traceback text captured on failure. -/
def push_to_queue (doc : OutgoingMailLog) (force : Bool) (publishOk : Bool)
    (tNow : Nat) (trace : String) : PushResult :=
  if ¬ force ∧ ¬ (doc.status = "Accepted" ∧ doc.failed_count < MAX_FAILED_COUNT) then
    { doc := doc, published := false, threw := false, returnedEarly := true }
  else
    let doc1 := { doc with status := "Queuing (RMQ)", transfer_started_at := tNow }
    let sendable := (doc.recipients.filter (fun r => r.status ≠ "Blocked")).map
      (fun r => r.email)
    if sendable = [] then
      { doc := doc1, published := false, threw := true, returnedEarly := false }
    else if publishOk then
      { doc := { doc1 with status := "Queued (RMQ)", transfer_completed_at := tNow },
        published := true, threw := false, returnedEarly := false }
    else
      let fc := doc.failed_count + 1
      { doc := { doc1 with
          status := "Failed",
          error_log := some trace,
          failed_count := fc,
          retry_after := some (tNow + backoffMinutes fc) },
        published := false, threw := false, returnedEarly := false }

/-- C2 -- On broker-publish failure inside `push_to_queue` (precondition
check passed, at least one non-blocked recipient, publish raises): the
message becomes Failed, `failed_count` goes up by exactly one, `retry_after`
is now plus `f(failed_count)` minutes for `f(n) = n * (n + 1)`, and that
backoff formula is strictly increasing in `failed_count`. -/
theorem push_to_queue_failure_backoff (doc : OutgoingMailLog) (force : Bool)
    (tNow : Nat) (trace : String)
    (hgate : force = true ∨ (doc.status = "Accepted" ∧ doc.failed_count < MAX_FAILED_COUNT))
    (hrcpt : ∃ r ∈ doc.recipients, r.status ≠ "Blocked") :
    (push_to_queue doc force false tNow trace).doc.status = "Failed"
    ∧ (push_to_queue doc force false tNow trace).doc.failed_count =
        doc.failed_count + 1
    ∧ (push_to_queue doc force false tNow trace).doc.retry_after =
        some (tNow + backoffMinutes (doc.failed_count + 1))
    ∧ ∀ k : Nat, backoffMinutes k < backoffMinutes (k + 1) := by
  have hgate2 : ¬ (¬ force ∧
      ¬ (doc.status = "Accepted" ∧ doc.failed_count < MAX_FAILED_COUNT)) := by
    rcases hgate with h | h
    · simp [h]
    · intro hc
      exact hc.2 h
  have hsend : ¬ ((doc.recipients.filter (fun r => r.status ≠ "Blocked")).map
      (fun r => r.email) = []) := by
    rcases hrcpt with ⟨r, hr, hs⟩
    intro h
    have : r ∈ doc.recipients.filter (fun r => r.status ≠ "Blocked") :=
      List.mem_filter.mpr ⟨hr, by simpa using hs⟩
    have : r.email ∈ (doc.recipients.filter (fun r => r.status ≠ "Blocked")).map
        (fun r => r.email) := List.mem_map_of_mem _ this
    rw [h] at this
    simp at this
  refine ⟨?_, ?_, ?_, ?_⟩
  · simp only [push_to_queue]
    rw [if_neg hgate2, if_neg hsend, if_neg (by simp)]
  · simp only [push_to_queue]
    rw [if_neg hgate2, if_neg hsend, if_neg (by simp)]
  · simp only [push_to_queue]
    rw [if_neg hgate2, if_neg hsend, if_neg (by simp)]
  · intro k
    simp only [backoffMinutes]
    nlinarith

/-- Concrete message used by the witness for C2: status Accepted, one
non-blocked recipient, `failed_count = 1`. -/
def docC2 : OutgoingMailLog :=
  { docC1 with
    status := "Accepted",
    failed_count := 1,
    recipients := [{ rcptSentA with status := "" }] }

/-- Witness for C2: the failed push at time 100 sets status Failed,
`failed_count = 2` and `retry_after = 100 + 2 * 3 = 106`. -/
theorem push_to_queue_failure_backoff_witness :
    (push_to_queue docC2 false false 100 "tb").doc.status = "Failed"
    ∧ (push_to_queue docC2 false false 100 "tb").doc.failed_count = 2
    ∧ (push_to_queue docC2 false false 100 "tb").doc.retry_after = some 106 := by
  have h := push_to_queue_failure_backoff docC2 false 100 "tb"
    (Or.inr ⟨by decide, by decide⟩)
    ⟨{ rcptSentA with status := "" }, by decide, by decide⟩
  exact ⟨h.1, h.2.1, h.2.2.1⟩

/-- C6 -- `push_to_queue` without force: if the reloaded status is not
Accepted or `failed_count` reached the ceiling, it returns silently with no
publish, no error and an unchanged document; it raises the user-facing
error exactly when the precondition check passes and every recipient is
Blocked, and when it raises nothing is published. -/
theorem push_to_queue_precondition_recheck (doc : OutgoingMailLog)
    (publishOk : Bool) (tNow : Nat) (trace : String) :
    (¬ (doc.status = "Accepted" ∧ doc.failed_count < MAX_FAILED_COUNT) →
      push_to_queue doc false publishOk tNow trace =
        { doc := doc, published := false, threw := false, returnedEarly := true })
    ∧ ((push_to_queue doc false publishOk tNow trace).threw = true ↔
        ((doc.status = "Accepted" ∧ doc.failed_count < MAX_FAILED_COUNT)
          ∧ ∀ r ∈ doc.recipients, r.status = "Blocked"))
    ∧ ((push_to_queue doc false publishOk tNow trace).threw = true →
        (push_to_queue doc false publishOk tNow trace).published = false) := by
  have hblk : ((doc.recipients.filter (fun r => r.status ≠ "Blocked")).map
      (fun r => r.email) = []) ↔ (∀ r ∈ doc.recipients, r.status = "Blocked") := by
    rw [List.map_eq_nil_iff, List.filter_eq_nil_iff]
    constructor
    · intro h r hr
      have := h r hr
      simpa using this
    · intro h r hr
      simpa using h r hr
  refine ⟨?_, ?_, ?_⟩
  · intro hgate
    simp only [push_to_queue]
    rw [if_pos ⟨by simp, hgate⟩]
  · by_cases hgate : doc.status = "Accepted" ∧ doc.failed_count < MAX_FAILED_COUNT
    · by_cases hall : ∀ r ∈ doc.recipients, r.status = "Blocked"
      · simp only [push_to_queue]
        rw [if_neg (by intro hc; exact hc.2 hgate), if_pos (hblk.mpr hall)]
        simpa using ⟨hgate, hall⟩
      · simp only [push_to_queue]
        rw [if_neg (by intro hc; exact hc.2 hgate), if_neg (by
          intro hc; exact hall (hblk.mp hc))]
        by_cases hp : publishOk = true
        · rw [if_pos hp]
          exact iff_of_false (by simp) (fun hc => hall hc.2)
        · rw [if_neg hp]
          exact iff_of_false (by simp) (fun hc => hall hc.2)
    · simp only [push_to_queue]
      rw [if_pos ⟨by simp, hgate⟩]
      exact iff_of_false (by simp) (fun hc => hgate hc.1)
  · intro hthrew
    by_cases hgate : doc.status = "Accepted" ∧ doc.failed_count < MAX_FAILED_COUNT
    · by_cases hall : ((doc.recipients.filter (fun r => r.status ≠ "Blocked")).map
          (fun r => r.email) = [])
      · simp only [push_to_queue]
        rw [if_neg (by intro hc; exact hc.2 hgate), if_pos hall]
      · exfalso
        revert hthrew
        simp only [push_to_queue]
        rw [if_neg (by intro hc; exact hc.2 hgate), if_neg hall]
        by_cases hp : publishOk = true
        · rw [if_pos hp]; simp
        · rw [if_neg hp]; simp
    · exfalso
      revert hthrew
      simp only [push_to_queue]
      rw [if_pos ⟨by simp, hgate⟩]
      simp

/-- Concrete message used by the witness for C6: status Failed, so the
re-check aborts silently. -/
def docC6 : OutgoingMailLog :=
  { docC2 with status := "Failed" }

/-- Witness for C6: a Failed message is returned untouched by an unforced
push. -/
theorem push_to_queue_precondition_recheck_witness :
    push_to_queue docC6 false true 7 "tb" =
      { doc := docC6, published := false, threw := false, returnedEarly := true } :=
  (push_to_queue_precondition_recheck docC6 true 7 "tb").1 (by decide)

/-- `batch_size` from `push_emails_to_queue`. -/
def batchSize : Nat := 1000

/-- Eligibility filter of the batch sweep query in `push_emails_to_queue`:
the join on `Mail Log Recipient` with `MLR.status != "Blocked"` keeps only
messages having at least one non-blocked recipient row, and the `where`
clause requires `failed_count < MAX_FAILED_COUNT`, `retry_after` null or
elapsed, and status Accepted or Failed. -/
def sweepEligible (tNow : Nat) (m : OutgoingMailLog) : Bool :=
  m.recipients.any (fun r => r.status != "Blocked")
  && decide (m.failed_count < MAX_FAILED_COUNT)
  && (match m.retry_after with
      | none => true
      | some t => decide (t ≤ tNow))
  && (m.status == "Accepted" || m.status == "Failed")

/-- The `ORDER BY priority DESC, received_at` ordering of the sweep query:
`a` may come before `b` when `a` has higher priority, or equal priority and
an earlier (or equal) received time. -/
def sweepRel (a b : OutgoingMailLog) : Prop :=
  b.priority < a.priority ∨ (a.priority = b.priority ∧ a.received_at ≤ b.received_at)

instance : DecidableRel sweepRel := by
  intro a b
  unfold sweepRel
  infer_instance

instance : IsTotal OutgoingMailLog sweepRel := by
  constructor
  intro a b
  unfold sweepRel
  omega

instance : IsTrans OutgoingMailLog sweepRel := by
  constructor
  intro a b c hab hbc
  unfold sweepRel at hab hbc ⊢
  omega

/-- The row set produced by the sweep query of `push_emails_to_queue`:
eligible messages, sorted by the query ordering (a sort realises `ORDER BY`
over a total order), truncated to `batch_size`. -/
def push_emails_to_queue_selection (tNow : Nat) (msgs : List OutgoingMailLog) :
    List OutgoingMailLog :=
  (List.insertionSort sweepRel (msgs.filter (sweepEligible tNow))).take batchSize

/-- Modelled from the spec words, for comparison with `sweepEligible`: the
claim describes eligibility as exactly status in Accepted/Failed,
`failed_count` below the ceiling, and `retry_after` null or not after now
(no condition on recipients). -/
def specSweepEligible (tNow : Nat) (m : OutgoingMailLog) : Bool :=
  (m.status == "Accepted" || m.status == "Failed")
  && decide (m.failed_count < MAX_FAILED_COUNT)
  && (match m.retry_after with
      | none => true
      | some t => decide (t ≤ tNow))

/-- Concrete message refuting C3 as stated: status Accepted, zero failures,
no retry gate, but its only recipient is Blocked. -/
def docC3 : OutgoingMailLog :=
  { docC1 with
    status := "Accepted",
    recipients := [{ rcptSentA with status := "Blocked" }] }

/-- Counterexample to C3 as stated: `docC3` satisfies every condition the
claim lists (status Accepted, `failed_count` below the ceiling,
`retry_after` null), yet a sweep over the one-message store selects
nothing, because the query's join also requires a non-Blocked recipient
row. -/
theorem push_emails_to_queue_selection_cex :
    specSweepEligible 0 docC3 = true
    ∧ push_emails_to_queue_selection 0 [docC3] = [] := by
  constructor
  · rfl
  · rfl

/-- C3 (amended) -- The batch sweep selects, up to the batch size limit,
exactly the stored messages whose status is Accepted or Failed, whose
`failed_count` is below the ceiling, whose `retry_after` is null or not
after now, and which have at least one recipient not marked Blocked; the
selection is ordered by priority descending and, within equal priority, by
received time ascending. -/
theorem push_emails_to_queue_selection_sound (tNow : Nat)
    (msgs : List OutgoingMailLog) :
    List.Sorted sweepRel (push_emails_to_queue_selection tNow msgs)
    ∧ (push_emails_to_queue_selection tNow msgs).length ≤ batchSize
    ∧ ((msgs.filter (sweepEligible tNow)).length ≤ batchSize →
        ∀ m, m ∈ push_emails_to_queue_selection tNow msgs ↔
          (m ∈ msgs ∧ sweepEligible tNow m = true)) := by
  refine ⟨?_, ?_, ?_⟩
  · exact (List.sorted_insertionSort sweepRel _).sublist (List.take_sublist _ _)
  · exact List.length_take_le _ _
  · intro hlen m
    have hperm := List.perm_insertionSort sweepRel (msgs.filter (sweepEligible tNow))
    have hlen2 : (List.insertionSort sweepRel
        (msgs.filter (sweepEligible tNow))).length ≤ batchSize := by
      rw [hperm.length_eq]
      exact hlen
    unfold push_emails_to_queue_selection
    rw [List.take_of_length_le hlen2, hperm.mem_iff, List.mem_filter]

/-- Concrete eligible message used by the witness for C3: Accepted, one
pending (non-blocked) recipient. -/
def docC3b : OutgoingMailLog :=
  { docC1 with
    status := "Accepted",
    recipients := [{ rcptSentA with status := "" }] }

/-- Witness for C3 (amended): over a store holding `docC3b` and the
all-blocked `docC3`, the sweep selects exactly `docC3b`. -/
theorem push_emails_to_queue_selection_sound_witness :
    docC3b ∈ push_emails_to_queue_selection 0 [docC3, docC3b] :=
  ((push_emails_to_queue_selection_sound 0 [docC3, docC3b]).2.2 (by decide)
    docC3b).mpr ⟨by decide, by decide⟩

/-- One entry of an `rcpt_to` event payload: the parsed address
(`parseaddr(recipient["original"])[1]`) and the serialized recipient dict
stored as the response. -/
structure EventRcpt where
  addr : String
  payload : String
deriving DecidableEq, Repr

/-- The Python dict comprehension
`{parseaddr(recipient["original"])[1]: recipient for recipient in rcpt_to}`:
keyed lookup where a later duplicate key wins. -/
def dictLookup (l : List EventRcpt) (k : String) : Option String :=
  ((l.filter (fun e => e.addr == k)).getLast?).map (fun e => e.payload)

/-- Payload of a `bounce` / `deferred` status event as read by the
`undelivered` handler. -/
structure UndeliveredEvent where
  hook : String
  retries : Nat
  action_at : Nat
  rcpt_to : List EventRcpt
deriving DecidableEq, Repr

/-- The `undelivered` handler of `fetch_and_update_delivery_statuses`: every
recipient whose address occurs in the event is overwritten with
Deferred/Bounced plus the event details, then the aggregate status is
recomputed once.  (The bounce-ledger update it also performs is modelled
separately with the ledger.) -/
def applyUndelivered (ev : UndeliveredEvent) (doc : OutgoingMailLog) :
    OutgoingMailLog :=
  let status := if ev.hook == "deferred" then "Deferred" else "Bounced"
  let rs := doc.recipients.map (fun r =>
    match dictLookup ev.rcpt_to r.email with
    | some payload =>
        { r with
          status := status,
          retries := ev.retries,
          action_at := ev.action_at,
          action_after := (ev.action_at : Int) - (doc.transfer_completed_at : Int),
          response := payload }
    | none => r)
  applyUpdateStatus { doc with recipients := rs }

/-- The `queue_ok` handler: records agent and queue id and moves the
message to Queued (Haraka); recipient rows are untouched. -/
def applyQueueOk (agent : String) (queueId : String) (doc : OutgoingMailLog) :
    OutgoingMailLog :=
  { doc with status := "Queued (Haraka)", agent := agent, queue_id := queueId }

/-- Payload of a `delivered` status event as read by the `delivered`
handler.  `response` is the single serialized params dict the handler
stores on every matched recipient. -/
structure DeliveredEvent where
  retries : Nat
  action_at : Nat
  ok_recips : List String
  response : String
deriving DecidableEq, Repr

/-- The per-recipient update of the `delivered` handler. -/
def deliveredUpdateRecipient (ev : DeliveredEvent) (tca : Nat)
    (r : MailLogRecipient) : MailLogRecipient :=
  if ev.ok_recips.contains r.email then
    { r with
      status := "Sent",
      retries := ev.retries,
      action_at := ev.action_at,
      action_after := (ev.action_at : Int) - (tca : Int),
      response := ev.response }
  else r

/-- One aggregate recomputation step (`update_status(db_set=True)` on a
document whose recipient rows are `rs`): the computed status if any,
otherwise the status is kept. -/
def statusFold (rs : List MailLogRecipient) (s : String) : String :=
  match computeMessageStatus rs with
  | some s2 => s2
  | none => s

/-- The recipient loop of the `delivered` handler.  In the source,
`doc.update_status(db_set=True)` sits inside the `for` loop (one
indentation level above the match test), so the aggregate status is
recomputed after every iteration over the partially updated row list. -/
def deliveredLoop (ev : DeliveredEvent) (tca : Nat)
    (done : List MailLogRecipient) (todo : List MailLogRecipient)
    (status : String) : List MailLogRecipient × String :=
  match todo with
  | [] => (done, status)
  | r :: rest =>
      let r2 := deliveredUpdateRecipient ev tca r
      let s2 := statusFold (done ++ r2 :: rest) status
      deliveredLoop ev tca (done ++ [r2]) rest s2

/-- The `delivered` handler of `fetch_and_update_delivery_statuses`. -/
def applyDelivered (ev : DeliveredEvent) (doc : OutgoingMailLog) :
    OutgoingMailLog :=
  let res := deliveredLoop ev doc.transfer_completed_at [] doc.recipients doc.status
  { doc with recipients := res.1, status := res.2 }

lemma deliveredUpdateRecipient_email (ev : DeliveredEvent) (tca : Nat)
    (r : MailLogRecipient) :
    (deliveredUpdateRecipient ev tca r).email = r.email := by
  unfold deliveredUpdateRecipient
  by_cases h : ev.ok_recips.contains r.email = true
  · rw [if_pos h]
  · rw [if_neg h]

lemma deliveredUpdateRecipient_idem (ev : DeliveredEvent) (tca : Nat)
    (r : MailLogRecipient) :
    deliveredUpdateRecipient ev tca (deliveredUpdateRecipient ev tca r) =
      deliveredUpdateRecipient ev tca r := by
  by_cases h : r.email ∈ ev.ok_recips
  · simp [deliveredUpdateRecipient, h]
  · simp [deliveredUpdateRecipient, h]

lemma statusFold_idem (rs : List MailLogRecipient) (s : String) :
    statusFold rs (statusFold rs s) = statusFold rs s := by
  unfold statusFold
  cases computeMessageStatus rs <;> rfl

lemma deliveredLoop_fst (ev : DeliveredEvent) (tca : Nat)
    (todo : List MailLogRecipient) :
    ∀ done s, (deliveredLoop ev tca done todo s).1 =
      done ++ todo.map (deliveredUpdateRecipient ev tca) := by
  induction todo with
  | nil => intro done s; simp [deliveredLoop]
  | cons r rest ih =>
      intro done s
      rw [deliveredLoop, ih]
      simp

lemma deliveredLoop_fixed (ev : DeliveredEvent) (tca : Nat)
    (todo : List MailLogRecipient)
    (hfix : ∀ r ∈ todo, deliveredUpdateRecipient ev tca r = r)
    (hne : todo ≠ []) :
    ∀ done s, deliveredLoop ev tca done todo s =
      (done ++ todo, statusFold (done ++ todo) s) := by
  induction todo with
  | nil => exact absurd rfl hne
  | cons r rest ih =>
      intro done s
      have hr : deliveredUpdateRecipient ev tca r = r :=
        hfix r (List.mem_cons_self r rest)
      by_cases hrest : rest = []
      · subst hrest
        rw [deliveredLoop, hr, deliveredLoop]
      · have hfix2 : ∀ x ∈ rest, deliveredUpdateRecipient ev tca x = x :=
          fun x hx => hfix x (List.mem_cons_of_mem r hx)
        rw [deliveredLoop, hr, ih hfix2 hrest,
          show done ++ [r] ++ rest = done ++ r :: rest by simp, statusFold_idem]

lemma deliveredLoop_snd (ev : DeliveredEvent) (tca : Nat)
    (todo : List MailLogRecipient) (hne : todo ≠ []) :
    ∀ done s, ∃ σ, (deliveredLoop ev tca done todo s).2 =
      statusFold (done ++ todo.map (deliveredUpdateRecipient ev tca)) σ := by
  induction todo with
  | nil => exact absurd rfl hne
  | cons r rest ih =>
      intro done s
      by_cases hrest : rest = []
      · subst hrest
        refine ⟨s, ?_⟩
        rw [deliveredLoop, deliveredLoop]
        simp
      · rcases ih hrest (done ++ [deliveredUpdateRecipient ev tca r])
          (statusFold (done ++ deliveredUpdateRecipient ev tca r :: rest) s) with ⟨σ, hσ⟩
        refine ⟨σ, ?_⟩
        rw [deliveredLoop, hσ]
        simp

lemma applyDelivered_eq (ev : DeliveredEvent) (doc : OutgoingMailLog) :
    applyDelivered ev doc =
      { doc with
        recipients :=
          (deliveredLoop ev doc.transfer_completed_at [] doc.recipients doc.status).1,
        status :=
          (deliveredLoop ev doc.transfer_completed_at [] doc.recipients doc.status).2 } :=
  rfl

/-- C8 -- Idempotence of delivered-event handling: applying the same
delivered event twice leaves the document (all recipient fields and the
aggregate status) exactly as after the first application. -/
theorem applyDelivered_idempotent (ev : DeliveredEvent) (doc : OutgoingMailLog) :
    applyDelivered ev (applyDelivered ev doc) = applyDelivered ev doc := by
  by_cases hnil : doc.recipients = []
  · have h1 : applyDelivered ev doc = doc := by
      obtain ⟨n, st, p, fc, ra, rc, pa, tsa, tca, el, em, ag, qi, rs, msg, dn⟩ := doc
      change rs = [] at hnil
      subst hnil
      rfl
    rw [h1, h1]
  · have hrec : (applyDelivered ev doc).recipients =
        doc.recipients.map (deliveredUpdateRecipient ev doc.transfer_completed_at) := by
      show (deliveredLoop ev doc.transfer_completed_at [] doc.recipients doc.status).1 = _
      rw [deliveredLoop_fst]
      simp
    have hne2 : (applyDelivered ev doc).recipients ≠ [] := by
      rw [hrec]
      simpa using hnil
    have hfix : ∀ r ∈ (applyDelivered ev doc).recipients,
        deliveredUpdateRecipient ev doc.transfer_completed_at r = r := by
      intro r hr
      rw [hrec] at hr
      rcases List.mem_map.mp hr with ⟨x, _, rfl⟩
      exact deliveredUpdateRecipient_idem ev doc.transfer_completed_at x
    have hst : statusFold (applyDelivered ev doc).recipients
        (applyDelivered ev doc).status = (applyDelivered ev doc).status := by
      rcases deliveredLoop_snd ev doc.transfer_completed_at doc.recipients hnil
        [] doc.status with ⟨σ, hσ⟩
      have hs0 : (applyDelivered ev doc).status =
          statusFold (doc.recipients.map
            (deliveredUpdateRecipient ev doc.transfer_completed_at)) σ := by
        show (deliveredLoop ev doc.transfer_completed_at [] doc.recipients doc.status).2 = _
        rw [hσ]
        simp
      rw [hrec, hs0]
      exact statusFold_idem _ _
    have htca : (applyDelivered ev doc).transfer_completed_at =
        doc.transfer_completed_at := rfl
    rw [applyDelivered_eq ev (applyDelivered ev doc), htca,
      deliveredLoop_fixed ev doc.transfer_completed_at
        (applyDelivered ev doc).recipients hfix hne2 [] (applyDelivered ev doc).status]
    simp only [List.nil_append]
    rw [hst, ← htca]

/-- Concrete delivered event used by the witness-free C8 check and by C4. -/
def evC4d : DeliveredEvent :=
  { retries := 2, action_at := 60, ok_recips := ["a@example.com"],
    response := "resp-json" }

/-- Concrete deferred event refuting C4 as stated. -/
def evC4u : UndeliveredEvent :=
  { hook := "deferred", retries := 3, action_at := 70,
    rcpt_to := [{ addr := "a@example.com", payload := "dsn" }] }

/-- Concrete message with a single already-Sent recipient. -/
def docC4 : OutgoingMailLog :=
  { docC1 with
    status := "Queued (Haraka)",
    recipients := [rcptSentA] }

/-- Counterexample to C4 as stated: the recipient of `docC4` is Sent, yet a
subsequently processed deferred event naming that address overwrites its
status to Deferred -- the `undelivered` handler does not guard on the
current recipient status. -/
theorem sent_recipient_overwritten_cex :
    rcptSentA.status = "Sent"
    ∧ (applyUndelivered evC4u docC4).recipients.map (fun r => r.status) =
        ["Deferred"] := by
  constructor
  · rfl
  · rfl

/-- C4 (amended) -- Once a recipient is Sent, subsequently processed
`queue_ok` and `delivered` events never change that recipient's status (a
repeated delivered event rewrites it as Sent, `queue_ok` does not touch
recipient rows); `bounce` and `deferred` events, however, overwrite the
status of every recipient they name. -/
theorem sent_recipient_stable_under_delivery_events (doc : OutgoingMailLog)
    (ev : DeliveredEvent) (agent queueId : String) :
    (∀ i, ∀ hi : i < doc.recipients.length,
      (doc.recipients.get ⟨i, hi⟩).status = "Sent" →
      ∃ hj : i < (applyDelivered ev doc).recipients.length,
        ((applyDelivered ev doc).recipients.get ⟨i, hj⟩).status = "Sent")
    ∧ (applyQueueOk agent queueId doc).recipients = doc.recipients := by
  constructor
  · intro i hi hsent
    have hrec : (applyDelivered ev doc).recipients =
        doc.recipients.map (deliveredUpdateRecipient ev doc.transfer_completed_at) := by
      unfold applyDelivered
      exact deliveredLoop_fst ev doc.transfer_completed_at doc.recipients [] doc.status
    have hj : i < (applyDelivered ev doc).recipients.length := by
      rw [hrec, List.length_map]
      exact hi
    refine ⟨hj, ?_⟩
    have : (applyDelivered ev doc).recipients.get ⟨i, hj⟩ =
        deliveredUpdateRecipient ev doc.transfer_completed_at
          (doc.recipients.get ⟨i, hi⟩) := by
      have := List.get_of_eq hrec ⟨i, hj⟩
      rw [this]
      exact List.get_map _
    rw [this]
    unfold deliveredUpdateRecipient
    by_cases h : ev.ok_recips.contains (doc.recipients.get ⟨i, hi⟩).email = true
    · rw [if_pos h]
    · rw [if_neg h]
      exact hsent
  · rfl

/-- Witness for C4 (amended): the Sent recipient of `docC4` is still Sent
after a delivered event naming it. -/
theorem sent_recipient_stable_witness :
    ∃ hj : 0 < (applyDelivered evC4d docC4).recipients.length,
      ((applyDelivered evC4d docC4).recipients.get ⟨0, hj⟩).status = "Sent" :=
  (sent_recipient_stable_under_delivery_events docC4 evC4d "agent1" "q9").1
    0 (by decide) (by decide)

/-- A `Bounce History` document (`bounce_history.py`).  Ledger timestamps
are in days, matching the `add_days` calls. -/
structure BounceHistory where
  email : String
  bounce_count : Nat
  last_bounce_at : Nat
  blocked_until : Nat
deriving DecidableEq, Repr

/-- `block_durations = [1, 7, 30, 36500]` -- 1 day, 7 days, 30 days and
about 100 years. -/
def block_durations : List Nat := [1, 7, 30, 36500]

/-- Python list indexing, negative indices counting from the end (the
formula `min(bounce_count - 1, ...)` is computed on Python ints, so the
index is an integer). -/
def pyListGet (l : List Nat) (i : Int) : Nat :=
  if 0 ≤ i then l.getD i.toNat 0 else l.getD (l.length - (-i).toNat) 0

/-- `BounceHistory.set_blocked_until`: `blocked_until` becomes now plus
`block_durations[min(bounce_count - 1, len(block_durations) - 1)]` days. -/
def set_blocked_until (tNow : Nat) (bounce_count : Nat) : Nat :=
  tNow + pyListGet block_durations (min ((bounce_count : Int) - 1) 3)

/-- `BounceHistory.validate`: when `bounce_count` changed, refresh
`last_bounce_at` and `blocked_until`. -/
def bounce_history_validate (doc : BounceHistory) (countChanged : Bool)
    (tNow : Nat) : BounceHistory :=
  if countChanged then
    { doc with
      last_bounce_at := tNow,
      blocked_until := set_blocked_until tNow doc.bounce_count }
  else doc

/-- `create_or_update_bounce_history(email, bounce_increment)`: add the
increment to an existing row for the address, or create a fresh row with
count equal to the increment; saving runs `validate`, whose
`has_value_changed("bounce_count")` is true for a new document and, on
update, exactly when the increment is non-zero. -/
def create_or_update_bounce_history (existing : Option BounceHistory)
    (email : String) (bounce_increment : Nat) (tNow : Nat) : BounceHistory :=
  match existing with
  | some doc =>
      bounce_history_validate { doc with bounce_count := doc.bounce_count + bounce_increment }
        (decide (doc.bounce_count + bounce_increment ≠ doc.bounce_count)) tNow
  | none =>
      bounce_history_validate
        { email := email, bounce_count := bounce_increment,
          last_bounce_at := 0, blocked_until := 0 }
        true tNow

lemma block_durations_index_mono (m n : Nat) (hm : 1 ≤ m) (hmn : m ≤ n) :
    pyListGet block_durations (min ((m : Int) - 1) 3) ≤
      pyListGet block_durations (min ((n : Int) - 1) 3) := by
  have hidx : ∀ k : Nat, 1 ≤ k →
      pyListGet block_durations (min ((k : Int) - 1) 3) =
        block_durations.getD (min (k - 1) 3) 0 := by
    intro k hk
    unfold pyListGet
    rw [if_pos (by omega)]
    congr 1
    omega
  rw [hidx m hm, hidx n (le_trans hm hmn)]
  have h1 : min (m - 1) 3 ≤ min (n - 1) 3 := by omega
  have h2 : min (n - 1) 3 ≤ 3 := by omega
  rcases Nat.lt_or_ge (n - 1) 4 with hn4 | hn4
  · interval_cases h : min (n - 1) 3 <;> interval_cases h2 : min (m - 1) 3 <;>
      simp_all [block_durations]
  · have hn3 : min (n - 1) 3 = 3 := by omega
    rw [hn3]
    have : min (m - 1) 3 ≤ 3 := by omega
    interval_cases h : min (m - 1) 3 <;> simp [block_durations]

/-- C5 -- Bounce escalation is monotonic: recording a further bounce at a
later time sets `blocked_until` to now plus the escalation-table entry at
index `min(bounce_count - 1, table length - 1)`; the table is ascending,
and the new `blocked_until` is at least the previous one. -/
theorem bounce_escalation_monotonic (doc : BounceHistory) (t1 t2 : Nat)
    (hcount : 1 ≤ doc.bounce_count)
    (hprev : doc.blocked_until = set_blocked_until t1 doc.bounce_count)
    (ht : t1 ≤ t2) :
    (create_or_update_bounce_history (some doc) doc.email 1 t2).blocked_until =
      set_blocked_until t2 (doc.bounce_count + 1)
    ∧ doc.blocked_until ≤
        (create_or_update_bounce_history (some doc) doc.email 1 t2).blocked_until
    ∧ List.Sorted (· ≤ ·) block_durations := by
  have hnew : (create_or_update_bounce_history (some doc) doc.email 1 t2).blocked_until =
      set_blocked_until t2 (doc.bounce_count + 1) := by
    simp [create_or_update_bounce_history, bounce_history_validate]
  refine ⟨hnew, ?_, by decide⟩
  rw [hnew, hprev]
  unfold set_blocked_until
  have := block_durations_index_mono doc.bounce_count (doc.bounce_count + 1)
    hcount (by omega)
  omega

/-- Concrete ledger row used by the witness for C5: second bounce, one day
after the first. -/
def bounceDocC5 : BounceHistory :=
  { email := "a@example.com", bounce_count := 1, last_bounce_at := 10,
    blocked_until := set_blocked_until 10 1 }

/-- Witness for C5: the second bounce at day 11 blocks until day 18
(7 days), not earlier than the first block until day 11. -/
theorem bounce_escalation_monotonic_witness :
    (create_or_update_bounce_history (some bounceDocC5) "a@example.com" 1 11).blocked_until =
      set_blocked_until 11 2
    ∧ bounceDocC5.blocked_until ≤
        (create_or_update_bounce_history (some bounceDocC5) "a@example.com" 1 11).blocked_until := by
  have h := bounce_escalation_monotonic bounceDocC5 10 11 (by decide) rfl (by decide)
  exact ⟨h.1, h.2.1⟩

/-- Outcome of a whitelisted operator action: role rejection
(`frappe.only_for` raising), a guard-failed no-op, or the acted-on
document. -/
inductive ActionOutcome where
  | permissionDenied
  | noop
  | acted (doc : OutgoingMailLog)
deriving DecidableEq, Repr

/-- `OutgoingMailLog.force_accept`: requires System Manager; acts only from
In Progress or Blocked; clears recipient-level blocks and accepts
(`_accept` sets status Accepted, clears the error message, stamps
`processed_at`).  The follow-up priority-3 push is a separate
`push_to_queue` call. -/
def force_accept (isSystemManager : Bool) (tNow : Nat)
    (doc : OutgoingMailLog) : ActionOutcome :=
  if ¬ isSystemManager then .permissionDenied
  else if doc.status = "In Progress" ∨ doc.status = "Blocked" then
    let rs := doc.recipients.map (fun r =>
      if r.status = "Blocked" then { r with status := "", error_message := none } else r)
    .acted { doc with
      recipients := rs, status := "Accepted", error_message := none,
      processed_at := tNow }
  else .noop

/-- `OutgoingMailLog.retry_failed`: the source whitelists it but performs
no `frappe.only_for` role check; it acts only from Failed while
`failed_count` is below the ceiling, resetting the error fields. -/
def retry_failed (isSystemManager : Bool) (doc : OutgoingMailLog) :
    ActionOutcome :=
  if doc.status = "Failed" ∧ doc.failed_count < MAX_FAILED_COUNT then
    .acted { doc with status := "Accepted", error_log := none, error_message := none }
  else .noop

/-- `OutgoingMailLog.retry_bounced`: requires System Manager; acts only
from Bounced, resetting the error fields. -/
def retry_bounced (isSystemManager : Bool) (doc : OutgoingMailLog) :
    ActionOutcome :=
  if ¬ isSystemManager then .permissionDenied
  else if doc.status = "Bounced" then
    .acted { doc with status := "Accepted", error_log := none, error_message := none }
  else .noop

/-- `OutgoingMailLog.force_push_to_queue`: requires System Manager; acts
only from Queued (RMQ) or Queued (Haraka), then re-enters `push_to_queue`
with the force flag set. -/
def force_push_to_queue (isSystemManager : Bool) (doc : OutgoingMailLog) :
    ActionOutcome :=
  if ¬ isSystemManager then .permissionDenied
  else if doc.status = "Queued (RMQ)" ∨ doc.status = "Queued (Haraka)" then
    .acted doc
  else .noop

/-- Concrete Failed message showing that `retry_failed` skips the role
check. -/
def docC7 : OutgoingMailLog :=
  { docC1 with status := "Failed", failed_count := 1 }

/-- Counterexample to C7 as stated: a caller without the System Manager
role invokes `retry_failed` on a Failed message and the action proceeds
(acts) instead of being rejected. -/
theorem retry_failed_no_role_check_cex :
    retry_failed false docC7 =
      ActionOutcome.acted
        { docC7 with status := "Accepted", error_log := none, error_message := none }
    ∧ retry_failed false docC7 ≠ ActionOutcome.permissionDenied := by
  constructor
  · rfl
  · decide

/-- C7 (amended) -- `force_accept`, `retry_bounced` and
`force_push_to_queue` reject a caller without the System Manager role;
`retry_failed` performs no role check; and every action is a no-op unless
its state precondition holds (`retry_failed` in particular acts only when
status is Failed and `failed_count` is below the retry ceiling). -/
theorem operator_actions_guarded (doc : OutgoingMailLog) (tNow : Nat)
    (anyRole : Bool) :
    force_accept false tNow doc = ActionOutcome.permissionDenied
    ∧ retry_bounced false doc = ActionOutcome.permissionDenied
    ∧ force_push_to_queue false doc = ActionOutcome.permissionDenied
    ∧ (¬ (doc.status = "Failed" ∧ doc.failed_count < MAX_FAILED_COUNT) →
        retry_failed anyRole doc = ActionOutcome.noop)
    ∧ (¬ (doc.status = "In Progress" ∨ doc.status = "Blocked") →
        force_accept true tNow doc = ActionOutcome.noop)
    ∧ (doc.status ≠ "Bounced" → retry_bounced true doc = ActionOutcome.noop)
    ∧ (¬ (doc.status = "Queued (RMQ)" ∨ doc.status = "Queued (Haraka)") →
        force_push_to_queue true doc = ActionOutcome.noop) := by
  refine ⟨?_, ?_, ?_, ?_, ?_, ?_, ?_⟩
  · simp [force_accept]
  · simp [retry_bounced]
  · simp [force_push_to_queue]
  · intro h
    simp only [retry_failed]
    rw [if_neg h]
  · intro h
    simp only [force_accept]
    rw [if_neg (by simp), if_neg h]
  · intro h
    simp only [retry_bounced]
    rw [if_neg (by simp), if_neg h]
  · intro h
    simp only [force_push_to_queue]
    rw [if_neg (by simp), if_neg h]

/-- Witness for C7 (amended): with the role but the message Accepted
rather than Failed, `retry_failed` is a no-op. -/
theorem operator_actions_guarded_witness :
    retry_failed true docC2 = ActionOutcome.noop :=
  (operator_actions_guarded docC2 0 true).2.2.2.1 (by decide)

/-- The stored recipient emails produced by `create_outgoing_mail_log`:
the loop `for rcpt in list(set(recipients))` appends one child row per
element of the set, in the (implementation-defined) iteration order of the
Python set, here passed in as `enum`. -/
def create_outgoing_mail_log_recipient_emails (recipients : List String)
    (enum : List String) : List String :=
  enum

/-- The contract of `list(set(recipients))`: some duplicate-free listing of
exactly the submitted addresses, in an unspecified order. -/
def isSetEnumeration (recipients : List String) (enum : List String) : Prop :=
  enum.Nodup ∧ ∀ x, x ∈ enum ↔ x ∈ recipients

/-- Counterexample to C9 as stated: the addresses are supplied in the
order b, a; the Python set may enumerate them a, b (both orders satisfy
the set contract), so the stored order need not equal the order of first
supply. -/
theorem create_outgoing_mail_log_order_cex :
    isSetEnumeration ["b@x.com", "a@x.com"] ["a@x.com", "b@x.com"]
    ∧ create_outgoing_mail_log_recipient_emails ["b@x.com", "a@x.com"]
        ["a@x.com", "b@x.com"] ≠ ["b@x.com", "a@x.com"] := by
  constructor
  · constructor
    · decide
    · intro x
      simp only [List.mem_cons, List.not_mem_nil, or_false]
      tauto
  · decide

/-- C9 (amended) -- Message creation collapses duplicate addresses: the
stored recipient entries are exactly the distinct submitted addresses,
each occurring once; their order is the Python set iteration order, which
is unspecified and need not be the order of first supply. -/
theorem create_outgoing_mail_log_recipients_dedup (recipients : List String)
    (enum : List String) (h : isSetEnumeration recipients enum) :
    (create_outgoing_mail_log_recipient_emails recipients enum).Nodup
    ∧ ∀ x, x ∈ create_outgoing_mail_log_recipient_emails recipients enum ↔
        x ∈ recipients := by
  exact ⟨h.1, h.2⟩

/-- Witness for C9 (amended) at the concrete enumeration of the
counterexample input. -/
theorem create_outgoing_mail_log_recipients_dedup_witness :
    (create_outgoing_mail_log_recipient_emails ["b@x.com", "a@x.com"]
      ["a@x.com", "b@x.com"]).Nodup
    ∧ "b@x.com" ∈ create_outgoing_mail_log_recipient_emails
        ["b@x.com", "a@x.com"] ["a@x.com", "b@x.com"] := by
  have h := create_outgoing_mail_log_recipients_dedup ["b@x.com", "a@x.com"]
    ["a@x.com", "b@x.com"]
    ⟨by decide, fun x => by
      simp only [List.mem_cons, List.not_mem_nil, or_false]
      tauto⟩
  exact ⟨h.1, (h.2 "b@x.com").mpr (by decide)⟩

/-- Concrete message used by the witness for C10. -/
def docC10 : OutgoingMailLog :=
  { docC1 with
    status := "In Progress",
    recipients := [{ rcptSentA with status := "" }] }

/-- Witness for C10 at a concrete message with one pending recipient. -/
theorem update_status_all_pending_frame_witness :
    update_status docC10 none true =
      { newStatus := "In Progress", dbWrote := false } :=
  update_status_all_pending_frame docC10 true (by decide)

end MailServer
